import Mathlib

/-!
Shallow embedding of manubot command.py: the command-line dispatcher.
It covers the subcommand registry built by parse_arguments, the
claim-relevant option parsing (the --log-level option, the mutually
exclusive format group of the cite subparser, the webpage options and
the global --version flag), the logging layer configured by
setup_logging_and_errors (a stderr StreamHandler plus the errorhandler
ErrorHandler severity monitor installed on the root logger), and the
main entry point with its exit_if_error_handler_fired epilogue.
-/

/-- Python logging severity value logging.DEBUG. -/
def DEBUG : Nat := 10

/-- Python logging severity value logging.INFO. -/
def INFO : Nat := 20

/-- Python logging severity value logging.WARNING. -/
def WARNING : Nat := 30

/-- Python logging severity value logging.ERROR. -/
def ERROR : Nat := 40

/-- Python logging severity value logging.CRITICAL. -/
def CRITICAL : Nat := 50

/-- Python logging level names for the standard levels. -/
def levelName (level : Nat) : String :=
  if level = DEBUG then "DEBUG"
  else if level = INFO then "INFO"
  else if level = WARNING then "WARNING"
  else if level = ERROR then "ERROR"
  else if level = CRITICAL then "CRITICAL"
  else "Level " ++ toString level

/-- A log record: severity value and message text. -/
structure LogRecord where
  level : Nat
  message : String
deriving DecidableEq

/-- The stderr formatter installed by setup_logging_and_errors: a
two-line block, a header naming the severity level followed by the
message body. -/
def formatRecord (r : LogRecord) : String :=
  "## " ++ levelName r.level ++ "\n" ++ r.message

/-- State of the configured root logger: the ErrorHandler fired flag,
the logger severity threshold, and the lines rendered to stderr by the
StreamHandler. -/
structure DiagState where
  fired : Bool
  loggerLevel : Nat
  stderr : List String
deriving DecidableEq

/-- setup_logging_and_errors: installs the ErrorHandler (fired false,
handler level ERROR) and the stderr StreamHandler with formatRecord on
the root logger, which starts at its default WARNING threshold. -/
def setup_logging_and_errors : DiagState :=
  { fired := false, loggerLevel := WARNING, stderr := [] }

/-- logger.setLevel on the root logger. -/
def setLevel (st : DiagState) (level : Nat) : DiagState :=
  { st with loggerLevel := level }

/-- One logging call against the configured root logger: a record is
created only when its severity passes the logger threshold; a created
record is rendered to stderr by the StreamHandler (whose own level is
NOTSET) and flips the ErrorHandler fired flag when at or above ERROR,
the level the ErrorHandler was installed with. -/
def emitRecord (st : DiagState) (r : LogRecord) : DiagState :=
  if st.loggerLevel ≤ r.level then
    { st with
      stderr := st.stderr ++ [formatRecord r]
      fired := st.fired || decide (ERROR ≤ r.level) }
  else st

/-- The --log-level option attached to a subparser: its choices list
and its default value. -/
structure LogLevelOption where
  choices : List String
  default : String
deriving DecidableEq

/-- A registered subparser: its name, the handler identifier string
stored by set_defaults, and the --log-level option attached by the loop
in parse_arguments (absent at registration time). -/
structure SubparserSpec where
  name : String
  function : String
  logLevel : Option LogLevelOption
deriving DecidableEq

/-- add_subparser_process: registers the process subcommand with its
handler identifier stored as a string by set_defaults. -/
def add_subparser_process : SubparserSpec :=
  { name := "process"
    function := "manubot.process.process_command.cli_process"
    logLevel := none }

/-- add_subparser_cite: registers the cite subcommand. -/
def add_subparser_cite : SubparserSpec :=
  { name := "cite"
    function := "manubot.cite.cite_command.cli_cite"
    logLevel := none }

/-- add_subparser_webpage: registers the webpage subcommand. -/
def add_subparser_webpage : SubparserSpec :=
  { name := "webpage"
    function := "manubot.webpage.webpage_command.cli_webpage"
    logLevel := none }

/-- add_subparser_airevision: registers the ai-revision subcommand. -/
def add_subparser_airevision : SubparserSpec :=
  { name := "ai-revision"
    function := "manubot.ai_revision.ai_revision_command.cli_process"
    logLevel := none }

/-- add_subparser_aicite: registers the ai-cite subcommand. -/
def add_subparser_aicite : SubparserSpec :=
  { name := "ai-cite"
    function := "manubot.ai_cite.ai_cite_command.cli_process"
    logLevel := none }

/-- The choices of the --log-level option added to every subparser. -/
def logLevelChoices : List String :=
  ["DEBUG", "INFO", "WARNING", "ERROR", "CRITICAL"]

/-- The loop at the end of parse_arguments: attaches the --log-level
option, with default WARNING and the fixed choices, to a subparser. -/
def attachLogLevel (s : SubparserSpec) : SubparserSpec :=
  { s with logLevel := some { choices := logLevelChoices, default := "WARNING" } }

/-- The subcommand registry built by parse_arguments: the five
registered subparsers, each with the --log-level option attached. -/
def registeredSubparsers : List SubparserSpec :=
  [add_subparser_process, add_subparser_cite, add_subparser_webpage,
   add_subparser_airevision, add_subparser_aicite].map attachLogLevel

/-- The argparse errors reachable through the modelled options. -/
inductive ArgparseError
  | invalidChoice (value : String)
  | mutuallyExclusive
deriving DecidableEq

/-- The argparse check of a supplied value against a choices list. -/
def checkChoice (choices : List String) (value : String) :
    Except ArgparseError String :=
  if value ∈ choices then .ok value else .error (.invalidChoice value)

/-- The four argparse actions of the mutually exclusive format group of
the cite subparser. -/
inductive CiteFormatAction
  | aFormat
  | aYml
  | aTxt
  | aMd
deriving DecidableEq

/-- One occurrence of a format-group option on a cite command line. -/
inductive CiteFormatFlag
  | format (value : String)
  | yml
  | txt
  | md
deriving DecidableEq

/-- The action an occurrence belongs to (--yml, --txt and --md are
distinct store_const actions sharing the format destination). -/
def actionOf : CiteFormatFlag → CiteFormatAction
  | .format _ => .aFormat
  | .yml => .aYml
  | .txt => .aTxt
  | .md => .aMd

/-- The choices of the --format option of the cite subparser. -/
def citeFormatChoices : List String :=
  ["csljson", "cslyaml", "plain", "markdown", "docx", "html", "jats"]

/-- Parse state for the format group: the format destination (argparse
default None) and the group actions already seen. -/
structure CiteParseState where
  format : Option String
  seen : List CiteFormatAction
deriving DecidableEq

/-- The argparse conflict check for a mutually exclusive group: taking
an action fails when a different action of the group has already been
seen with a non-default value. -/
def conflictCheck (seen : List CiteFormatAction) (a : CiteFormatAction) : Bool :=
  seen.any (fun b => b ≠ a)

/-- Marks a group action as seen. -/
def recordSeen (seen : List CiteFormatAction) (a : CiteFormatAction) :
    List CiteFormatAction :=
  if a ∈ seen then seen else seen ++ [a]

/-- Processing one occurrence of a format-group option: for --format
the supplied value is checked against the choices first (argparse
computes the values before the conflict check), then the mutually
exclusive group conflict is checked, then the store or store_const
action writes the shared format destination. -/
def stepCiteFormat (st : CiteParseState) (f : CiteFormatFlag) :
    Except ArgparseError CiteParseState :=
  match f with
  | .format v =>
    match checkChoice citeFormatChoices v with
    | .error e => .error e
    | .ok v =>
      if conflictCheck st.seen .aFormat then .error .mutuallyExclusive
      else .ok { format := some v, seen := recordSeen st.seen .aFormat }
  | .yml =>
    if conflictCheck st.seen .aYml then .error .mutuallyExclusive
    else .ok { format := some "cslyaml", seen := recordSeen st.seen .aYml }
  | .txt =>
    if conflictCheck st.seen .aTxt then .error .mutuallyExclusive
    else .ok { format := some "plain", seen := recordSeen st.seen .aTxt }
  | .md =>
    if conflictCheck st.seen .aMd then .error .mutuallyExclusive
    else .ok { format := some "markdown", seen := recordSeen st.seen .aMd }

/-- Parsing the format-group occurrences of one cite invocation, left
to right, from the argparse defaults (format starts at None). -/
def parseCiteFormat (flags : List CiteFormatFlag) :
    Except ArgparseError (Option String) :=
  (List.foldlM stepCiteFormat { format := none, seen := [] } flags).map
    (fun st => st.format)

/-- The two argparse actions of the mutually exclusive ots-cache group
of the webpage subparser. -/
inductive WebpageAction
  | aNoOtsCache
  | aOtsCache
deriving DecidableEq

/-- One occurrence of a webpage option on the command line; --checkout
has nargs with a const, so a bare occurrence carries no value. -/
inductive WebpageFlag
  | checkout (value : Option String)
  | version (value : String)
  | timestamp
  | noOtsCache
  | otsCache (value : String)
deriving DecidableEq

/-- The options record of the webpage subparser. -/
structure WebpageOptions where
  checkout : Option String
  version : Option String
  timestamp : Bool
  no_ots_cache : Bool
  ots_cache : String
deriving DecidableEq

/-- The argparse defaults of the webpage subparser: --version declares
no default, so like --checkout it defaults to None. -/
def webpageDefaults : WebpageOptions :=
  { checkout := none
    version := none
    timestamp := false
    no_ots_cache := false
    ots_cache := "ci/cache/ots" }

/-- Parse state for the webpage options. -/
structure WebpageParseState where
  opts : WebpageOptions
  seen : List WebpageAction
deriving DecidableEq

/-- Conflict check for the ots-cache mutually exclusive group. -/
def webpageConflict (seen : List WebpageAction) (a : WebpageAction) : Bool :=
  seen.any (fun b => b ≠ a)

/-- Marks an ots-cache group action as seen. -/
def webpageRecordSeen (seen : List WebpageAction) (a : WebpageAction) :
    List WebpageAction :=
  if a ∈ seen then seen else seen ++ [a]

/-- Processing one webpage option occurrence: --version is a plain
store action writing the version key of the options record; a bare
--checkout stores its const gh-pages; the two ots-cache options form a
mutually exclusive group. -/
def stepWebpage (st : WebpageParseState) (f : WebpageFlag) :
    Except ArgparseError WebpageParseState :=
  match f with
  | .checkout v =>
    .ok { st with opts := { st.opts with checkout := some (v.getD "gh-pages") } }
  | .version v =>
    .ok { st with opts := { st.opts with version := some v } }
  | .timestamp =>
    .ok { st with opts := { st.opts with timestamp := true } }
  | .noOtsCache =>
    if webpageConflict st.seen .aNoOtsCache then .error .mutuallyExclusive
    else .ok { opts := { st.opts with no_ots_cache := true }
               seen := webpageRecordSeen st.seen .aNoOtsCache }
  | .otsCache v =>
    if webpageConflict st.seen .aOtsCache then .error .mutuallyExclusive
    else .ok { opts := { st.opts with ots_cache := v }
               seen := webpageRecordSeen st.seen .aOtsCache }

/-- Parsing the webpage option occurrences, left to right, from the
argparse defaults. -/
def parseWebpage (flags : List WebpageFlag) :
    Except ArgparseError WebpageOptions :=
  (List.foldlM stepWebpage { opts := webpageDefaults, seen := [] } flags).map
    (fun st => st.opts)

/-- Modelled from the spec: manubot.__version__ is defined outside this
file (in the manubot package root); the spec only requires that the
global --version flag prints a version string, which parse_arguments
renders with a v prefix. -/
def manubot_version : String := "manubot.__version__"

/-- The top level of parse_arguments: a --version token given before
any subcommand token triggers the argparse version action, which prints
the v-prefixed version string and exits with status 0; otherwise
parsing proceeds to subcommand selection on the remaining tokens. -/
def topLevelVersionCheck (argv : List String) :
    Sum (String × Nat) (List String) :=
  match argv with
  | "--version" :: _ => .inl ("v" ++ manubot_version, 0)
  | rest => .inr rest

/-- The argparse namespace produced by a successful parse: the selected
subcommand, its stored handler identifier, the log-level value and the
subcommand-specific options. -/
structure Args (σ : Type) where
  subcommand : String
  function : String
  log_level : String
  options : σ

/-- getattr applied to the logging module and a level name, as main
does with the parsed log-level value (argparse guarantees the value is
one of the five choices). -/
def getattrLevel (name : String) : Nat :=
  if name = "DEBUG" then DEBUG
  else if name = "INFO" then INFO
  else if name = "WARNING" then WARNING
  else if name = "ERROR" then ERROR
  else if name = "CRITICAL" then CRITICAL
  else 0

/-- A handler: the records it logs through the root logger when invoked
with the parsed arguments, and whether it raises instead of returning
normally (its records are emitted before any raise). -/
structure Handler (σ : Type) where
  run : Args σ → List LogRecord
  raises : Args σ → Bool

/-- A handler that logs a fixed list of records and returns normally,
whatever arguments it receives. -/
def constHandler {σ : Type} (logs : List LogRecord) : Handler σ :=
  { run := fun _ => logs, raises := fun _ => false }

/-- The observable side effects of main, in execution order. -/
inductive MainEvent
  | configureDiagnostics
  | parseArgs
  | applyLogLevel (level : Nat)
  | resolveHandler (id : String)
  | invokeHandler
  | queryMonitor (fired : Bool)
deriving DecidableEq

/-- Recognizes handler-resolution events. -/
def isResolveEvent : MainEvent → Bool
  | .resolveHandler _ => true
  | _ => false

/-- How the process run ends: SystemExit with a code, an uncaught
exception propagating out of main, or main returning normally. -/
inductive Outcome
  | exited (code : Nat)
  | raised
  | returned
deriving DecidableEq

/-- Process exit status: SystemExit carries its code, a main that
returns normally makes the console script exit 0, and an uncaught
exception is abnormal termination. -/
def exitStatus : Outcome → Option Nat
  | .exited code => some code
  | .raised => none
  | .returned => some 0

/-- The message logged at CRITICAL by exit_if_error_handler_fired. -/
def failureMessage : String := "Failure: exiting with code 1 due to logged errors"

/-- The result of one run of main: the outcome, the ordered side-effect
trace, the stderr lines, and the final ErrorHandler fired flag. -/
structure RunResult where
  outcome : Outcome
  events : List MainEvent
  stderr : List String
  fired : Bool

/-- The root-logger state after main has applied the parsed log-level
to the state configured by setup_logging_and_errors and the invoked
handler has logged its records. -/
def handlerDiagState {σ : Type} (args : Args σ) (handler : Handler σ) : DiagState :=
  (handler.run args).foldl emitRecord
    (setLevel setup_logging_and_errors (getattrLevel args.log_level))

namespace command

/-- main: configure diagnostics, parse the arguments, apply the parsed
log-level to the root logger, resolve the stored handler identifier
with import_function, invoke the handler with the parsed namespace,
then run exit_if_error_handler_fired: if a record at or above ERROR was
observed, log the CRITICAL failure summary and raise SystemExit 1.
Argument parsing is supplied as a result (argparse raises SystemExit
with the given code on a parse failure, before any handler resolution)
and import_function as a success predicate on handler identifiers (an
unresolvable identifier raises out of main). -/
def main {σ : Type} (parseResult : Except Nat (Args σ))
    (resolveOk : String → Bool) (handler : Handler σ) : RunResult :=
  match parseResult with
  | .error code =>
    { outcome := .exited code
      events := [.configureDiagnostics, .parseArgs]
      stderr := setup_logging_and_errors.stderr
      fired := setup_logging_and_errors.fired }
  | .ok args =>
    if resolveOk args.function then
      if handler.raises args then
        { outcome := .raised
          events := [.configureDiagnostics, .parseArgs,
                     .applyLogLevel (getattrLevel args.log_level),
                     .resolveHandler args.function, .invokeHandler]
          stderr := (handlerDiagState args handler).stderr
          fired := (handlerDiagState args handler).fired }
      else if (handlerDiagState args handler).fired then
        { outcome := .exited 1
          events := [.configureDiagnostics, .parseArgs,
                     .applyLogLevel (getattrLevel args.log_level),
                     .resolveHandler args.function, .invokeHandler,
                     .queryMonitor true]
          stderr := (emitRecord (handlerDiagState args handler)
            { level := CRITICAL, message := failureMessage }).stderr
          fired := (emitRecord (handlerDiagState args handler)
            { level := CRITICAL, message := failureMessage }).fired }
      else
        { outcome := .returned
          events := [.configureDiagnostics, .parseArgs,
                     .applyLogLevel (getattrLevel args.log_level),
                     .resolveHandler args.function, .invokeHandler,
                     .queryMonitor false]
          stderr := (handlerDiagState args handler).stderr
          fired := (handlerDiagState args handler).fired }
    else
      { outcome := .raised
        events := [.configureDiagnostics, .parseArgs,
                   .applyLogLevel (getattrLevel args.log_level),
                   .resolveHandler args.function]
        stderr := (setLevel setup_logging_and_errors
          (getattrLevel args.log_level)).stderr
        fired := (setLevel setup_logging_and_errors
          (getattrLevel args.log_level)).fired }

end command

/-- The parse result of a cite invocation as main sees it, restricted
to the format group: a parse failure makes argparse exit with the usage
error code 2 before main resolves or invokes any handler. -/
def citeParseResult (logLevel : String) (flags : List CiteFormatFlag) :
    Except Nat (Args (Option String)) :=
  match parseCiteFormat flags with
  | .error _ => .error 2
  | .ok fmt =>
    .ok { subcommand := "cite"
          function := add_subparser_cite.function
          log_level := logLevel
          options := fmt }

/-- The full side-effect trace of a run that reaches the final severity
monitor query; shorter runs produce a prefix of it. -/
def fullTrace (level : Nat) (id : String) (b : Bool) : List MainEvent :=
  [.configureDiagnostics, .parseArgs, .applyLogLevel level,
   .resolveHandler id, .invokeHandler, .queryMonitor b]

/-! Lemmas about the diagnostic layer. -/

theorem emitRecord_loggerLevel (st : DiagState) (r : LogRecord) :
    (emitRecord st r).loggerLevel = st.loggerLevel := by
  unfold emitRecord
  split <;> rfl

theorem foldl_emitRecord_loggerLevel (logs : List LogRecord) (st : DiagState) :
    (logs.foldl emitRecord st).loggerLevel = st.loggerLevel := by
  induction logs generalizing st with
  | nil => rfl
  | cons r rest ih =>
    rw [List.foldl_cons, ih, emitRecord_loggerLevel]

theorem emitRecord_fired_mono (st : DiagState) (r : LogRecord)
    (h : st.fired = true) : (emitRecord st r).fired = true := by
  unfold emitRecord
  split
  · simp [h]
  · exact h

theorem foldl_emitRecord_fired_mono (logs : List LogRecord) (st : DiagState)
    (h : st.fired = true) : (logs.foldl emitRecord st).fired = true := by
  induction logs generalizing st with
  | nil => exact h
  | cons r rest ih =>
    rw [List.foldl_cons]
    exact ih _ (emitRecord_fired_mono st r h)

theorem emitRecord_fires (st : DiagState) (r : LogRecord)
    (h1 : ERROR ≤ r.level) (h2 : st.loggerLevel ≤ r.level) :
    (emitRecord st r).fired = true := by
  unfold emitRecord
  rw [if_pos h2]
  simp [h1]

theorem foldl_emitRecord_fires (logs : List LogRecord) (st : DiagState)
    (r : LogRecord) (hmem : r ∈ logs) (h1 : ERROR ≤ r.level)
    (h2 : st.loggerLevel ≤ r.level) :
    (logs.foldl emitRecord st).fired = true := by
  induction logs generalizing st with
  | nil => cases hmem
  | cons a rest ih =>
    rw [List.foldl_cons]
    rcases List.mem_cons.mp hmem with h | h
    · subst h
      exact foldl_emitRecord_fired_mono _ _ (emitRecord_fires st r h1 h2)
    · exact ih _ h (by rw [emitRecord_loggerLevel]; exact h2)

theorem emitRecord_not_fired (st : DiagState) (r : LogRecord)
    (hst : st.fired = false) (h : r.level < ERROR) :
    (emitRecord st r).fired = false := by
  unfold emitRecord
  split
  · simp only [hst, Bool.false_or]
    simp
    omega
  · exact hst

theorem foldl_emitRecord_not_fired (logs : List LogRecord) (st : DiagState)
    (hst : st.fired = false) (hall : ∀ r ∈ logs, r.level < ERROR) :
    (logs.foldl emitRecord st).fired = false := by
  induction logs generalizing st with
  | nil => exact hst
  | cons a rest ih =>
    rw [List.foldl_cons]
    exact ih _ (emitRecord_not_fired st a hst (hall a (List.mem_cons_self a rest)))
      (fun r hr => hall r (List.mem_cons_of_mem a hr))

theorem emitRecord_stderr_of_le (st : DiagState) (r : LogRecord)
    (h : st.loggerLevel ≤ r.level) :
    (emitRecord st r).stderr = st.stderr ++ [formatRecord r] := by
  unfold emitRecord
  rw [if_pos h]

theorem emitRecord_stderr_mem (st : DiagState) (r : LogRecord) (s : String)
    (h : s ∈ (emitRecord st r).stderr) : s ∈ st.stderr ∨ s = formatRecord r := by
  unfold emitRecord at h
  split at h
  · simp only [List.mem_append, List.mem_singleton] at h
    exact h
  · exact Or.inl h

theorem foldl_emitRecord_stderr_mem (logs : List LogRecord) (st : DiagState)
    (s : String) (h : s ∈ (logs.foldl emitRecord st).stderr) :
    s ∈ st.stderr ∨ ∃ r ∈ logs, s = formatRecord r := by
  induction logs generalizing st with
  | nil => exact Or.inl h
  | cons a rest ih =>
    rw [List.foldl_cons] at h
    rcases ih _ h with h1 | ⟨r, hr, hs⟩
    · rcases emitRecord_stderr_mem st a s h1 with h2 | h2
      · exact Or.inl h2
      · exact Or.inr ⟨a, List.mem_cons_self a rest, h2⟩
    · exact Or.inr ⟨r, List.mem_cons_of_mem a hr, hs⟩

theorem getattrLevel_le_CRITICAL (name : String) :
    getattrLevel name ≤ CRITICAL := by
  unfold getattrLevel
  repeat' split
  all_goals decide

/-! Lemmas about runs of main. -/

theorem handlerDiagState_loggerLevel {σ : Type} (args : Args σ)
    (handler : Handler σ) :
    (handlerDiagState args handler).loggerLevel = getattrLevel args.log_level := by
  unfold handlerDiagState
  rw [foldl_emitRecord_loggerLevel]
  rfl

theorem main_fired_run {σ : Type} (args : Args σ) (ro : String → Bool)
    (handler : Handler σ) (hro : ro args.function = true)
    (hret : handler.raises args = false)
    (hfired : (handlerDiagState args handler).fired = true) :
    (command.main (.ok args) ro handler).outcome = .exited 1 ∧
    (command.main (.ok args) ro handler).events =
      fullTrace (getattrLevel args.log_level) args.function true ∧
    (command.main (.ok args) ro handler).stderr =
      (handlerDiagState args handler).stderr ++
        [formatRecord { level := CRITICAL, message := failureMessage }] := by
  have hmain : command.main (.ok args) ro handler =
      { outcome := .exited 1
        events := [.configureDiagnostics, .parseArgs,
                   .applyLogLevel (getattrLevel args.log_level),
                   .resolveHandler args.function, .invokeHandler,
                   .queryMonitor true]
        stderr := (emitRecord (handlerDiagState args handler)
          { level := CRITICAL, message := failureMessage }).stderr
        fired := (emitRecord (handlerDiagState args handler)
          { level := CRITICAL, message := failureMessage }).fired } := by
    simp only [command.main]
    rw [if_pos hro, if_neg (by rw [hret]; exact Bool.false_ne_true), if_pos hfired]
  refine ⟨by rw [hmain], by rw [hmain]; rfl, ?_⟩
  rw [hmain]
  exact emitRecord_stderr_of_le _ _
    (by rw [handlerDiagState_loggerLevel]; exact getattrLevel_le_CRITICAL _)

theorem main_returned_run {σ : Type} (args : Args σ) (ro : String → Bool)
    (handler : Handler σ) (hro : ro args.function = true)
    (hret : handler.raises args = false)
    (hfired : (handlerDiagState args handler).fired = false) :
    (command.main (.ok args) ro handler).outcome = .returned := by
  simp only [command.main]
  rw [if_pos hro, if_neg (by rw [hret]; exact Bool.false_ne_true),
    if_neg (by rw [hfired]; exact Bool.false_ne_true)]

theorem main_ok_events {σ : Type} (args : Args σ) (ro : String → Bool)
    (handler : Handler σ) :
    (command.main (.ok args) ro handler).events =
        (fullTrace (getattrLevel args.log_level) args.function true).take 4 ∨
    (command.main (.ok args) ro handler).events =
        (fullTrace (getattrLevel args.log_level) args.function true).take 5 ∨
    ∃ b, (command.main (.ok args) ro handler).events =
        fullTrace (getattrLevel args.log_level) args.function b := by
  simp only [command.main]
  by_cases hro : ro args.function = true
  · rw [if_pos hro]
    by_cases hra : handler.raises args = true
    · rw [if_pos hra]
      exact Or.inr (Or.inl rfl)
    · rw [if_neg hra]
      by_cases hf : (handlerDiagState args handler).fired = true
      · rw [if_pos hf]
        exact Or.inr (Or.inr ⟨true, rfl⟩)
      · rw [if_neg hf]
        exact Or.inr (Or.inr ⟨false, rfl⟩)
  · rw [if_neg hro]
    exact Or.inl rfl
/-! Lemmas about the cite format group. -/

theorem bind_ok_eq {ε α β : Type} (a : α) (f : α → Except ε β) :
    (Except.ok a >>= f : Except ε β) = f a := rfl

theorem bind_error_eq {ε α β : Type} (e : ε) (f : α → Except ε β) :
    (Except.error e >>= f : Except ε β) = Except.error e := rfl

theorem conflictCheck_false (seen : List CiteFormatAction) (a : CiteFormatAction)
    (h : conflictCheck seen a = false) : ∀ b ∈ seen, b = a := by
  intro b hb
  unfold conflictCheck at h
  rw [List.any_eq_false] at h
  have := h b hb
  simpa using this

theorem subset_recordSeen (seen : List CiteFormatAction) (a : CiteFormatAction) :
    seen ⊆ recordSeen seen a := by
  unfold recordSeen
  split
  · exact fun x hx => hx
  · exact List.subset_append_left seen [a]

theorem mem_recordSeen (seen : List CiteFormatAction) (a : CiteFormatAction) :
    a ∈ recordSeen seen a := by
  unfold recordSeen
  split
  · assumption
  · simp

theorem stepCiteFormat_ok_spec (st : CiteParseState) (f : CiteFormatFlag)
    (st1 : CiteParseState) (h : stepCiteFormat st f = .ok st1) :
    conflictCheck st.seen (actionOf f) = false ∧
    st1.seen = recordSeen st.seen (actionOf f) := by
  cases f with
  | format v =>
    simp only [stepCiteFormat] at h
    cases hc : checkChoice citeFormatChoices v with
    | error e => rw [hc] at h; simp at h
    | ok w =>
      rw [hc] at h
      simp only [] at h
      by_cases hcf : conflictCheck st.seen .aFormat = true
      · rw [if_pos hcf] at h; cases h
      · rw [if_neg hcf] at h
        injection h with h
        exact ⟨Bool.eq_false_iff.mpr hcf, by rw [← h]; rfl⟩
  | yml =>
    simp only [stepCiteFormat] at h
    by_cases hcf : conflictCheck st.seen .aYml = true
    · rw [if_pos hcf] at h; cases h
    · rw [if_neg hcf] at h
      injection h with h
      exact ⟨Bool.eq_false_iff.mpr hcf, by rw [← h]; rfl⟩
  | txt =>
    simp only [stepCiteFormat] at h
    by_cases hcf : conflictCheck st.seen .aTxt = true
    · rw [if_pos hcf] at h; cases h
    · rw [if_neg hcf] at h
      injection h with h
      exact ⟨Bool.eq_false_iff.mpr hcf, by rw [← h]; rfl⟩
  | md =>
    simp only [stepCiteFormat] at h
    by_cases hcf : conflictCheck st.seen .aMd = true
    · rw [if_pos hcf] at h; cases h
    · rw [if_neg hcf] at h
      injection h with h
      exact ⟨Bool.eq_false_iff.mpr hcf, by rw [← h]; rfl⟩

theorem stepCiteFormat_error_spec (st : CiteParseState) (f : CiteFormatFlag)
    (e : ArgparseError)
    (hv : ∀ v, f = CiteFormatFlag.format v → v ∈ citeFormatChoices)
    (h : stepCiteFormat st f = .error e) : e = .mutuallyExclusive := by
  cases f with
  | format v =>
    simp only [stepCiteFormat] at h
    rw [show checkChoice citeFormatChoices v = .ok v from
      if_pos (hv v rfl)] at h
    simp only [] at h
    by_cases hcf : conflictCheck st.seen .aFormat = true
    · rw [if_pos hcf] at h
      injection h with h
      exact h.symm
    · rw [if_neg hcf] at h; cases h
  | yml =>
    simp only [stepCiteFormat] at h
    by_cases hcf : conflictCheck st.seen .aYml = true
    · rw [if_pos hcf] at h
      injection h with h
      exact h.symm
    · rw [if_neg hcf] at h; cases h
  | txt =>
    simp only [stepCiteFormat] at h
    by_cases hcf : conflictCheck st.seen .aTxt = true
    · rw [if_pos hcf] at h
      injection h with h
      exact h.symm
    · rw [if_neg hcf] at h; cases h
  | md =>
    simp only [stepCiteFormat] at h
    by_cases hcf : conflictCheck st.seen .aMd = true
    · rw [if_pos hcf] at h
      injection h with h
      exact h.symm
    · rw [if_neg hcf] at h; cases h

theorem foldlM_cite_ok_uniform (flags : List CiteFormatFlag) :
    ∀ (st stF : CiteParseState),
      List.foldlM stepCiteFormat st flags = .ok stF →
      (∀ f ∈ flags, ∀ a ∈ st.seen, actionOf f = a) ∧
      (∀ f ∈ flags, ∀ g ∈ flags, actionOf f = actionOf g) := by
  induction flags with
  | nil =>
    intro st stF _
    exact ⟨fun f hf => absurd hf (List.not_mem_nil f),
           fun f hf => absurd hf (List.not_mem_nil f)⟩
  | cons a rest ih =>
    intro st stF h
    rw [List.foldlM_cons] at h
    cases hstep : stepCiteFormat st a with
    | error e =>
      rw [hstep, bind_error_eq] at h
      cases h
    | ok st1 =>
      rw [hstep, bind_ok_eq] at h
      obtain ⟨hconf, hseen⟩ := stepCiteFormat_ok_spec st a st1 hstep
      have hprev : ∀ b ∈ st.seen, b = actionOf a := conflictCheck_false _ _ hconf
      obtain ⟨ih1, ih2⟩ := ih st1 stF h
      have hrest_a : ∀ f ∈ rest, actionOf f = actionOf a := by
        intro f hf
        apply ih1 f hf
        rw [hseen]
        exact mem_recordSeen _ _
      refine ⟨?_, ?_⟩
      · intro f hf b hb
        rcases List.mem_cons.mp hf with rfl | hf
        · exact (hprev b hb).symm
        · rw [hrest_a f hf]
          exact (hprev b hb).symm
      · intro f hf g hg
        have hfa : actionOf f = actionOf a := by
          rcases List.mem_cons.mp hf with h1 | h1
          · rw [h1]
          · exact hrest_a f h1
        have hga : actionOf g = actionOf a := by
          rcases List.mem_cons.mp hg with h1 | h1
          · rw [h1]
          · exact hrest_a g h1
        rw [hfa, hga]

theorem foldlM_cite_error_mutex (flags : List CiteFormatFlag) :
    ∀ (st : CiteParseState) (e : ArgparseError),
      (∀ v, CiteFormatFlag.format v ∈ flags → v ∈ citeFormatChoices) →
      List.foldlM stepCiteFormat st flags = .error e →
      e = .mutuallyExclusive := by
  induction flags with
  | nil =>
    intro st e _ h
    cases h
  | cons a rest ih =>
    intro st e hval h
    rw [List.foldlM_cons] at h
    cases hstep : stepCiteFormat st a with
    | error e0 =>
      rw [hstep, bind_error_eq] at h
      injection h with h
      rw [← h]
      exact stepCiteFormat_error_spec st a e0
        (fun v hv => hval v (hv ▸ List.mem_cons_self a rest)) hstep
    | ok st1 =>
      rw [hstep, bind_ok_eq] at h
      exact ih st1 e (fun v hv => hval v (List.mem_cons_of_mem a hv)) h

theorem parseCiteFormat_mutex (flags : List CiteFormatFlag)
    (f g : CiteFormatFlag) (hf : f ∈ flags) (hg : g ∈ flags)
    (hne : actionOf f ≠ actionOf g)
    (hval : ∀ v, CiteFormatFlag.format v ∈ flags → v ∈ citeFormatChoices) :
    parseCiteFormat flags = .error .mutuallyExclusive := by
  unfold parseCiteFormat
  cases hres : List.foldlM stepCiteFormat { format := none, seen := [] } flags with
  | ok stF =>
    exact absurd ((foldlM_cite_ok_uniform flags _ stF hres).2 f hf g hg) hne
  | error e =>
    rw [foldlM_cite_error_mutex flags _ e hval hres]
    rfl

/-! Concrete fixtures used by witnesses and counterexamples. -/

/-- A parsed cite invocation with the default WARNING log level. -/
def witnessArgs : Args Unit :=
  { subcommand := "cite"
    function := "manubot.cite.cite_command.cli_cite"
    log_level := "WARNING"
    options := () }

/-- The same invocation with log level CRITICAL. -/
def criticalArgs : Args Unit :=
  { witnessArgs with log_level := "CRITICAL" }

/-- A handler that logs one ERROR record and returns normally. -/
def errorLogHandler : Handler Unit :=
  constHandler [{ level := ERROR, message := "boom" }]

/-- A handler that logs DEBUG, INFO and WARNING records and returns
normally. -/
def infoLogHandler : Handler Unit :=
  constHandler
    [{ level := DEBUG, message := "d" }, { level := INFO, message := "i" },
     { level := WARNING, message := "w" }]

/-- Every stderr line of a run of main is the rendering of some record. -/
theorem main_stderr_cases {σ : Type} (parseResult : Except Nat (Args σ))
    (ro : String → Bool) (handler : Handler σ) (s : String)
    (hs : s ∈ (command.main parseResult ro handler).stderr) :
    ∃ r : LogRecord, s = formatRecord r := by
  cases parseResult with
  | error c =>
    exact absurd hs (List.not_mem_nil s)
  | ok args =>
    by_cases hro : ro args.function = true
    · by_cases hra : handler.raises args = true
      · have hst : (command.main (.ok args) ro handler).stderr =
            (handlerDiagState args handler).stderr := by
          simp only [command.main]
          rw [if_pos hro, if_pos hra]
        rw [hst] at hs
        unfold handlerDiagState at hs
        rcases foldl_emitRecord_stderr_mem _ _ _ hs with h | ⟨r, _, hr⟩
        · exact absurd h (List.not_mem_nil s)
        · exact ⟨r, hr⟩
      · by_cases hfd : (handlerDiagState args handler).fired = true
        · have hst : (command.main (.ok args) ro handler).stderr =
              (emitRecord (handlerDiagState args handler)
                { level := CRITICAL, message := failureMessage }).stderr := by
            simp only [command.main]
            rw [if_pos hro, if_neg hra, if_pos hfd]
          rw [hst] at hs
          rcases emitRecord_stderr_mem _ _ _ hs with h | hr
          · unfold handlerDiagState at h
            rcases foldl_emitRecord_stderr_mem _ _ _ h with h2 | ⟨r, _, hr2⟩
            · exact absurd h2 (List.not_mem_nil s)
            · exact ⟨r, hr2⟩
          · exact ⟨_, hr⟩
        · have hst : (command.main (.ok args) ro handler).stderr =
              (handlerDiagState args handler).stderr := by
            simp only [command.main]
            rw [if_pos hro, if_neg hra, if_neg hfd]
          rw [hst] at hs
          unfold handlerDiagState at hs
          rcases foldl_emitRecord_stderr_mem _ _ _ hs with h | ⟨r, _, hr⟩
          · exact absurd h (List.not_mem_nil s)
          · exact ⟨r, hr⟩
    · have hst : (command.main (.ok args) ro handler).stderr =
          ([] : List String) := by
        simp only [command.main]
        rw [if_neg hro]
        rfl
      rw [hst] at hs
      exact absurd hs (List.not_mem_nil s)

/-! The claims. -/

/-- Claim C1: whenever the handler returns normally and at least one
record at ERROR severity or above was logged during the run (a record
is logged only when it passes the configured logger threshold), main
exits with status 1, one final CRITICAL summary block is appended to
stderr, and the severity monitor is queried only after the handler
invocation in the side-effect trace. -/
theorem C1_error_logged_exits_one {σ : Type} (args : Args σ)
    (ro : String → Bool) (handler : Handler σ)
    (hro : ro args.function = true) (hret : handler.raises args = false)
    (hlog : ∃ r ∈ handler.run args,
      ERROR ≤ r.level ∧ getattrLevel args.log_level ≤ r.level) :
    (command.main (.ok args) ro handler).outcome = .exited 1 ∧
    (∃ pre, (command.main (.ok args) ro handler).stderr =
      pre ++ [formatRecord { level := CRITICAL, message := failureMessage }]) ∧
    (command.main (.ok args) ro handler).events =
      fullTrace (getattrLevel args.log_level) args.function true := by
  obtain ⟨r, hr, h1, h2⟩ := hlog
  have hfired : (handlerDiagState args handler).fired = true :=
    foldl_emitRecord_fires _ _ r hr h1 h2
  obtain ⟨ho, he, hs⟩ := main_fired_run args ro handler hro hret hfired
  exact ⟨ho, ⟨_, hs⟩, he⟩

/-- Claim C1 witness: a run with the default WARNING log level whose
handler logs one ERROR record exits 1 with the CRITICAL summary. -/
theorem C1_error_logged_exits_one_witness :
    (command.main (.ok witnessArgs) (fun _ => true) errorLogHandler).outcome =
      .exited 1 ∧
    (∃ pre, (command.main (.ok witnessArgs) (fun _ => true) errorLogHandler).stderr =
      pre ++ [formatRecord { level := CRITICAL, message := failureMessage }]) ∧
    (command.main (.ok witnessArgs) (fun _ => true) errorLogHandler).events =
      fullTrace (getattrLevel witnessArgs.log_level) witnessArgs.function true :=
  C1_error_logged_exits_one witnessArgs (fun _ => true) errorLogHandler rfl rfl
    ⟨{ level := ERROR, message := "boom" }, by decide, by decide, by decide⟩

/-- Claim C2: whenever the handler returns normally and logged no
record at ERROR severity or above, main returns normally and the
process exits with status 0, however many DEBUG, INFO or WARNING
records were logged. -/
theorem C2_no_error_logged_exits_zero {σ : Type} (args : Args σ)
    (ro : String → Bool) (handler : Handler σ)
    (hro : ro args.function = true) (hret : handler.raises args = false)
    (hall : ∀ r ∈ handler.run args, r.level < ERROR) :
    (command.main (.ok args) ro handler).outcome = .returned ∧
    exitStatus (command.main (.ok args) ro handler).outcome = some 0 := by
  have hnf : (handlerDiagState args handler).fired = false :=
    foldl_emitRecord_not_fired _ _ rfl hall
  have ho := main_returned_run args ro handler hro hret hnf
  exact ⟨ho, by rw [ho]; rfl⟩

/-- Claim C2 witness: a handler that logs one DEBUG, one INFO and one
WARNING record and returns normally yields exit status 0. -/
theorem C2_no_error_logged_exits_zero_witness :
    (command.main (.ok witnessArgs) (fun _ => true) infoLogHandler).outcome =
      .returned ∧
    exitStatus (command.main (.ok witnessArgs) (fun _ => true)
      infoLogHandler).outcome = some 0 :=
  C2_no_error_logged_exits_zero witnessArgs (fun _ => true) infoLogHandler
    rfl rfl (by decide)

/-- Claim C3 is false on the code: two runs differing only in the
--log-level value (WARNING versus CRITICAL) both execute a handler that
logs one ERROR record; the WARNING run exits 1 but the CRITICAL run
exits 0, because a record below the CRITICAL logger threshold is never
created, so it never reaches the ErrorHandler severity monitor. -/
theorem C3_counterexample :
    (∃ r ∈ errorLogHandler.run criticalArgs, ERROR ≤ r.level) ∧
    criticalArgs = { witnessArgs with log_level := "CRITICAL" } ∧
    exitStatus (command.main (.ok witnessArgs) (fun _ => true)
      errorLogHandler).outcome = some 1 ∧
    exitStatus (command.main (.ok criticalArgs) (fun _ => true)
      errorLogHandler).outcome = some 0 :=
  ⟨⟨{ level := ERROR, message := "boom" }, by decide, by decide⟩, rfl, rfl, rfl⟩

/-- Claim C3 amended: for any two runs differing only in the
--log-level value, provided both values are at most ERROR (that is,
DEBUG, INFO, WARNING or ERROR), a record at ERROR severity or above
emitted by the handler causes exit status 1 in both runs; with
--log-level=CRITICAL an ERROR record is filtered out before reaching
the severity monitor and the run exits 0. -/
theorem C3_amended_exit_independence {σ : Type} (args : Args σ)
    (l1 l2 : String) (ro : String → Bool) (logs : List LogRecord)
    (h1 : getattrLevel l1 ≤ ERROR) (h2 : getattrLevel l2 ≤ ERROR)
    (hro : ro args.function = true)
    (hlog : ∃ r ∈ logs, ERROR ≤ r.level) :
    exitStatus (command.main (.ok { args with log_level := l1 }) ro
      (constHandler logs)).outcome = some 1 ∧
    exitStatus (command.main (.ok { args with log_level := l2 }) ro
      (constHandler logs)).outcome = some 1 := by
  obtain ⟨r, hr, hlvl⟩ := hlog
  constructor
  · have hfired : (handlerDiagState { args with log_level := l1 }
        (constHandler logs)).fired = true :=
      foldl_emitRecord_fires logs _ r hr hlvl (Nat.le_trans h1 hlvl)
    have hm := main_fired_run { args with log_level := l1 } ro
      (constHandler logs) hro rfl hfired
    rw [hm.1]
    rfl
  · have hfired : (handlerDiagState { args with log_level := l2 }
        (constHandler logs)).fired = true :=
      foldl_emitRecord_fires logs _ r hr hlvl (Nat.le_trans h2 hlvl)
    have hm := main_fired_run { args with log_level := l2 } ro
      (constHandler logs) hro rfl hfired
    rw [hm.1]
    rfl

/-- Claim C3 amended witness: the same ERROR-logging handler run at
log levels DEBUG and ERROR exits 1 in both runs. -/
theorem C3_amended_exit_independence_witness :
    exitStatus (command.main (.ok { witnessArgs with log_level := "DEBUG" })
      (fun _ => true) (constHandler [{ level := ERROR, message := "boom" }])).outcome =
      some 1 ∧
    exitStatus (command.main (.ok { witnessArgs with log_level := "ERROR" })
      (fun _ => true) (constHandler [{ level := ERROR, message := "boom" }])).outcome =
      some 1 :=
  C3_amended_exit_independence witnessArgs "DEBUG" "ERROR" (fun _ => true)
    [{ level := ERROR, message := "boom" }] (by decide) (by decide) rfl
    ⟨{ level := ERROR, message := "boom" }, by decide, by decide⟩

/-- Claim C4: the side effects of main are strictly ordered: the trace
of a run whose parse fails is exactly diagnostics configuration then
parsing, and the trace of a run with a successful parse is a prefix of
length at least four of the canonical sequence configure diagnostics,
parse, apply the parsed log-level, resolve the selected handler,
invoke, query the severity monitor, so configuration precedes parsing,
the parsed level is applied before invocation, and the monitor is read
only after the handler has returned. -/
theorem C4_side_effect_order {σ : Type} (args : Args σ)
    (ro : String → Bool) (handler : Handler σ) (c : Nat) :
    (command.main (.error c : Except Nat (Args σ)) ro handler).events =
      [.configureDiagnostics, .parseArgs] ∧
    ∃ n b, 4 ≤ n ∧
      (command.main (.ok args) ro handler).events =
        (fullTrace (getattrLevel args.log_level) args.function b).take n := by
  refine ⟨rfl, ?_⟩
  rcases main_ok_events args ro handler with h | h | ⟨b, h⟩
  · exact ⟨4, true, by decide, h⟩
  · exact ⟨5, true, by decide, h⟩
  · exact ⟨6, b, by decide, by rw [h]; rfl⟩

/-- Claim C5: every registered subcommand (process, cite, webpage,
ai-revision, ai-cite) carries a --log-level option whose choices are
exactly DEBUG, INFO, WARNING, ERROR, CRITICAL, whose default is
WARNING, and whose value check accepts exactly the members of that
domain and rejects everything else with an invalid-choice error. -/
theorem C5_log_level_option :
    registeredSubparsers.map (fun s => s.name) =
      ["process", "cite", "webpage", "ai-revision", "ai-cite"] ∧
    (∀ s ∈ registeredSubparsers,
      s.logLevel = some { choices := logLevelChoices, default := "WARNING" }) ∧
    logLevelChoices = ["DEBUG", "INFO", "WARNING", "ERROR", "CRITICAL"] ∧
    (∀ v ∈ logLevelChoices, checkChoice logLevelChoices v = .ok v) ∧
    (∀ v, v ∉ logLevelChoices →
      checkChoice logLevelChoices v = .error (.invalidChoice v)) := by
  refine ⟨rfl, ?_, rfl, ?_, ?_⟩
  · intro s hs
    simp only [registeredSubparsers, List.map, List.mem_cons,
      List.not_mem_nil, or_false] at hs
    rcases hs with rfl | rfl | rfl | rfl | rfl <;> rfl
  · intro v hv
    unfold checkChoice
    rw [if_pos hv]
  · intro v hv
    unfold checkChoice
    rw [if_neg hv]

/-- Claim C5 witness: the cite subparser is registered with the
--log-level option, the in-domain value INFO parses, and the
out-of-domain value TRACE is rejected. -/
theorem C5_log_level_option_witness :
    (attachLogLevel add_subparser_cite ∈ registeredSubparsers ∧
      (attachLogLevel add_subparser_cite).logLevel =
        some { choices := logLevelChoices, default := "WARNING" }) ∧
    ("INFO" ∈ logLevelChoices ∧
      checkChoice logLevelChoices "INFO" = .ok "INFO") ∧
    ("TRACE" ∉ logLevelChoices ∧
      checkChoice logLevelChoices "TRACE" = .error (.invalidChoice "TRACE")) :=
  ⟨⟨by decide, C5_log_level_option.2.1 _ (by decide)⟩,
   ⟨by decide, C5_log_level_option.2.2.2.1 "INFO" (by decide)⟩,
   ⟨by decide, C5_log_level_option.2.2.2.2 "TRACE" (by decide)⟩⟩

/-- Claim C6: a cite invocation supplying two distinct options of the
mutually exclusive format group (with any supplied --format value in
its choices) fails parsing with the mutual-exclusion error, and the
resulting run of main stops after the parse event with exit status 2:
no handler is resolved or invoked. -/
theorem C6_mutually_exclusive_formats (flags : List CiteFormatFlag)
    (lvl : String) (ro : String → Bool) (handler : Handler (Option String))
    (f g : CiteFormatFlag) (hf : f ∈ flags) (hg : g ∈ flags)
    (hne : actionOf f ≠ actionOf g)
    (hval : ∀ v, CiteFormatFlag.format v ∈ flags → v ∈ citeFormatChoices) :
    parseCiteFormat flags = .error .mutuallyExclusive ∧
    (command.main (citeParseResult lvl flags) ro handler).events =
      [.configureDiagnostics, .parseArgs] ∧
    (command.main (citeParseResult lvl flags) ro handler).outcome =
      .exited 2 := by
  have hmutex := parseCiteFormat_mutex flags f g hf hg hne hval
  have hparse : citeParseResult lvl flags = .error 2 := by
    unfold citeParseResult
    rw [hmutex]
  refine ⟨hmutex, ?_, ?_⟩ <;> rw [hparse] <;> rfl

/-- Claim C6 witness: supplying --yml and --txt together fails with the
mutual-exclusion error before any handler resolution. -/
theorem C6_mutually_exclusive_formats_witness :
    parseCiteFormat [CiteFormatFlag.yml, CiteFormatFlag.txt] =
      .error .mutuallyExclusive ∧
    (command.main (citeParseResult "WARNING"
        [CiteFormatFlag.yml, CiteFormatFlag.txt])
      (fun _ => true) (constHandler [])).events =
      [.configureDiagnostics, .parseArgs] ∧
    (command.main (citeParseResult "WARNING"
        [CiteFormatFlag.yml, CiteFormatFlag.txt])
      (fun _ => true) (constHandler [])).outcome = .exited 2 :=
  C6_mutually_exclusive_formats [CiteFormatFlag.yml, CiteFormatFlag.txt]
    "WARNING" (fun _ => true) (constHandler [])
    CiteFormatFlag.yml CiteFormatFlag.txt (by decide) (by decide) (by decide)
    (by intro v hv; simp at hv)

/-- Claim C7: registration stores only handler identifier strings (one
per subcommand), and a run of main resolves exactly one identifier,
the one stored for the selected subcommand, strictly after the parse
event; a run whose parse fails resolves nothing. -/
theorem C7_lazy_resolution {σ : Type} (args : Args σ) (ro : String → Bool)
    (handler : Handler σ) (c : Nat) :
    registeredSubparsers.map (fun s => s.function) =
      ["manubot.process.process_command.cli_process",
       "manubot.cite.cite_command.cli_cite",
       "manubot.webpage.webpage_command.cli_webpage",
       "manubot.ai_revision.ai_revision_command.cli_process",
       "manubot.ai_cite.ai_cite_command.cli_process"] ∧
    (command.main (.ok args) ro handler).events.filter isResolveEvent =
      [.resolveHandler args.function] ∧
    (command.main (.error c : Except Nat (Args σ)) ro handler).events.filter
      isResolveEvent = [] ∧
    (command.main (.ok args) ro handler).events.take 3 =
      [.configureDiagnostics, .parseArgs,
       .applyLogLevel (getattrLevel args.log_level)] ∧
    (command.main (.ok args) ro handler).events[3]? =
      some (.resolveHandler args.function) := by
  refine ⟨rfl, ?_, rfl, ?_, ?_⟩ <;>
    (rcases main_ok_events args ro handler with h | h | ⟨b, h⟩ <;> rw [h] <;> rfl)

/-- Claim C8: every line a run of main writes to stderr is the
rendering of some log record in the configured format, a two-line
block of a severity header followed by the message body. -/
theorem C8_stderr_format {σ : Type} (parseResult : Except Nat (Args σ))
    (ro : String → Bool) (handler : Handler σ) (s : String)
    (hs : s ∈ (command.main parseResult ro handler).stderr) :
    ∃ r : LogRecord, s = formatRecord r ∧
      formatRecord r = "## " ++ levelName r.level ++ "\n" ++ r.message := by
  obtain ⟨r, hr⟩ := main_stderr_cases parseResult ro handler s hs
  exact ⟨r, hr, rfl⟩

/-- Claim C8 witness: the ERROR line rendered by a concrete run has the
two-line severity-header format. -/
theorem C8_stderr_format_witness :
    ("## ERROR\nboom" ∈ (command.main (.ok witnessArgs) (fun _ => true)
      errorLogHandler).stderr) ∧
    ∃ r : LogRecord, "## ERROR\nboom" = formatRecord r ∧
      formatRecord r = "## " ++ levelName r.level ++ "\n" ++ r.message :=
  ⟨by decide, C8_stderr_format (.ok witnessArgs) (fun _ => true)
    errorLogHandler "## ERROR\nboom" (by decide)⟩

/-- Claim C9: a cite invocation with no format-group option parses with
format None (no csljson default at parse time), and the --yml, --txt
and --md aliases store cslyaml, plain and markdown into the same
format destination that --format itself writes. -/
theorem C9_format_aliases :
    parseCiteFormat [] = .ok none ∧
    parseCiteFormat [CiteFormatFlag.yml] = .ok (some "cslyaml") ∧
    parseCiteFormat [CiteFormatFlag.txt] = .ok (some "plain") ∧
    parseCiteFormat [CiteFormatFlag.md] = .ok (some "markdown") ∧
    parseCiteFormat [CiteFormatFlag.format "cslyaml"] = .ok (some "cslyaml") :=
  ⟨rfl, rfl, rfl, rfl, rfl⟩

/-- Claim C10: the webpage --version option is an ordinary store action
whose value lands in the version key of the options record handed to
the handler (absent by default, never terminating the process), while
the global --version flag before a subcommand token triggers the
argparse version action, printing the v-prefixed version string and
exiting 0. -/
theorem C10_webpage_version_option (st : WebpageParseState) (v : String)
    (rest : List String) :
    stepWebpage st (.version v) =
      .ok { st with opts := { st.opts with version := some v } } ∧
    parseWebpage [] = .ok webpageDefaults ∧
    webpageDefaults.version = none ∧
    topLevelVersionCheck ("--version" :: rest) =
      .inl ("v" ++ manubot_version, 0) ∧
    topLevelVersionCheck ("webpage" :: rest) = .inr ("webpage" :: rest) :=
  ⟨rfl, rfl, rfl, rfl, rfl⟩
